import Mathlib

/-!
Shallow embedding of the HapticRingMonitoring repository (Python sources)
in Lean 4, together with theorems settling the frozen claims about it.

The controller code in `src/core/haptic_system.py` computes with Python
floats; it is embedded here over `ℚ`, reading every float literal as the
exact rational number it denotes.  Sample buffers produced by
`src/audio/haptic_renderer.py` contain transcendental values (`sin`,
`exp`, `π`), so sample values are embedded over `ℝ` while all
index/length arithmetic stays exact; `numpy`'s unseeded global random
generator is made explicit as a noise stream argument to the generators
that draw from it.
-/

/-! ## Volume controller (src/core/haptic_system.py) -/

/-- Window duration set in `HapticSystem.__init__`: 25 ms. -/
def spike_window_duration_sec : ℚ := 0.025

/-- Attack smoothing factor `self.volume_smooth_factor = 0.4`. -/
def volume_smooth_factor : ℚ := 0.4

/-- Decay smoothing factor `self.volume_fast_decay_factor = 0.8`. -/
def volume_fast_decay_factor : ℚ := 0.8

/-- Rate-recomputation period `self.spike_rate_update_interval = 2`. -/
def spike_rate_update_interval : ℕ := 2

/-- Model of `numpy.clip(x, lo, hi)` on rationals. -/
def npClip (x lo hi : ℚ) : ℚ := min (max x lo) hi

/-- Embedding of `HapticSystem._spike_rate_to_volume`
(src/core/haptic_system.py lines 277-296).  The configured volume scales
`sound.ra_motion_min_vol_scl` and `sound.ra_motion_max_vol_scl`
(0.7 and 1.0 in `src/core/config.py`) are passed as the first two
arguments. -/
def spike_rate_to_volume (min_volume max_volume spike_rate : ℚ) : ℚ :=
  let min_spike_rate : ℚ := 20.0
  let max_spike_rate : ℚ := 120.0
  if spike_rate ≤ 0 then 0.0
  else if spike_rate ≤ min_spike_rate then min_volume
  else if max_spike_rate ≤ spike_rate then max_volume
  else
    let volume_range := max_volume - min_volume
    let rate_range := max_spike_rate - min_spike_rate
    let volume := min_volume + ((spike_rate - min_spike_rate) / rate_range) * volume_range
    npClip volume 0.0 1.0

/-- Embedding of `HapticSystem._calculate_spike_rate`
(src/core/haptic_system.py lines 256-275).  The Python method both pops
old entries off the head of the deque and returns the rate, so the model
returns the rate together with the pruned window. -/
def calculate_spike_rate (current_time : ℚ) (ts : List (ℚ × Bool)) :
    ℚ × List (ℚ × Bool) :=
  let cutoff_time := current_time - spike_window_duration_sec
  let remaining := ts.dropWhile (fun e => decide (e.1 < cutoff_time))
  let spike_count : ℕ := remaining.countP (fun e => e.2)
  let effective_duration : ℚ :=
    match remaining with
    | [] => spike_window_duration_sec
    | oldest :: _ =>
        max (min (current_time - oldest.1) spike_window_duration_sec) 0.005
  (if 0 < effective_duration then (spike_count : ℚ) / effective_duration else 0.0,
   remaining)

/-- The mutable attributes of `HapticSystem` that the volume-control path
reads or writes. -/
structure HapticState where
  mouse_pressed : Bool
  ra_motion_spike_timestamps : List (ℚ × Bool)
  current_spike_rate : ℚ
  target_volume : ℚ
  current_volume : ℚ
  spike_rate_update_counter : ℕ
deriving Repr, DecidableEq

/-- Initial volume-control state set in `HapticSystem.__init__`. -/
def initState : HapticState :=
  { mouse_pressed := false
    ra_motion_spike_timestamps := []
    current_spike_rate := 0.0
    target_volume := 0.0
    current_volume := 0.0
    spike_rate_update_counter := 0 }

/-- Embedding of `HapticSystem._update_ra_motion_volume`
(src/core/haptic_system.py lines 212-254), the part of `step` that
mutates the volume-control state.  `ra_motion_fired` and `current_time`
are the inputs the surrounding `step` supplies each tick. -/
def update_ra_motion_volume (min_volume max_volume : ℚ) (s : HapticState)
    (ra_motion_fired : Bool) (current_time : ℚ) : HapticState :=
  let ts0 := s.ra_motion_spike_timestamps ++ [(current_time, ra_motion_fired)]
  let counter0 := s.spike_rate_update_counter + 1
  let rate :=
    if spike_rate_update_interval ≤ counter0 then
      (calculate_spike_rate current_time ts0).1
    else s.current_spike_rate
  let ts1 :=
    if spike_rate_update_interval ≤ counter0 then
      (calculate_spike_rate current_time ts0).2
    else ts0
  let counter1 := if spike_rate_update_interval ≤ counter0 then 0 else counter0
  let target :=
    if s.mouse_pressed ∧ 0 < rate then
      spike_rate_to_volume min_volume max_volume rate
    else 0.0
  let smooth_factor :=
    if s.current_volume < target then volume_smooth_factor
    else volume_fast_decay_factor
  let cv0 := s.current_volume + (target - s.current_volume) * smooth_factor
  let cv1 := if |cv0 - target| < 0.005 then target else cv0
  { mouse_pressed := s.mouse_pressed
    ra_motion_spike_timestamps := ts1
    current_spike_rate := rate
    target_volume := target
    current_volume := cv1
    spike_rate_update_counter := counter1 }

/-- Embedding of `HapticSystem.mouse_press` restricted to the
volume-control state: it only flips `mouse_pressed` (the remaining lines
feed the spike encoder and trigger a one-shot click sound). -/
def mouse_press (s : HapticState) : HapticState :=
  { s with mouse_pressed := true }

/-- Embedding of `HapticSystem.mouse_release`
(src/core/haptic_system.py lines 310-319): clears the press flag and
forces both volumes to 0 immediately. -/
def mouse_release (s : HapticState) : HapticState :=
  { s with mouse_pressed := false, target_volume := 0.0, current_volume := 0.0 }

/-- One external call into the volume-control state: a tick of
`HapticSystem.step` (carrying the motion-spike flag and the wall-clock
time it reads), `mouse_press`, or `mouse_release`. -/
inductive HapticAction where
  | tick (ra_motion_fired : Bool) (current_time : ℚ)
  | press
  | release
deriving Repr, DecidableEq

/-- Apply one action to the volume-control state. -/
def applyAction (min_volume max_volume : ℚ) (s : HapticState) :
    HapticAction → HapticState
  | .tick fired now => update_ra_motion_volume min_volume max_volume s fired now
  | .press => mouse_press s
  | .release => mouse_release s

/-- Run a finite sequence of external calls from a given state. -/
def runActions (min_volume max_volume : ℚ) (s : HapticState)
    (l : List HapticAction) : HapticState :=
  l.foldl (applyAction min_volume max_volume) s

/-! ## Izhikevich neuron

The implementation file `src/neuron/izhikevich_neuron.py` is not present
under `src/`; only its import in `src/neuron/__init__.py` and its callers
are.  The integrator is therefore modelled from the spec. -/

/-- Neuron coefficients {a, b, c, d} (spec section 3, NeuronParams). -/
structure NeuronParams where
  a : ℚ
  b : ℚ
  c : ℚ
  d : ℚ
deriving Repr, DecidableEq

/-- Neuron state {v, u} (spec section 3, NeuronState). -/
structure NeuronState where
  v : ℚ
  u : ℚ
deriving Repr, DecidableEq

/-- Modelled from the spec: the missing `IzhikevichNeuron.step` of
`src/neuron/izhikevich_neuron.py`, following spec section 4.1 verbatim:

v1 = v + dt*(0.04*v^2 + 5*v + 140 - u + I),
u1 = u + dt*(a*(b*v - u)),
and if v1 >= 30.0 then spiked, v1 = c, u1 = u1 + d. -/
def izh_step (p : NeuronParams) (s : NeuronState) (input_current dt : ℚ) :
    Bool × NeuronState :=
  let v1 := s.v + dt * (0.04 * s.v ^ 2 + 5 * s.v + 140 - s.u + input_current)
  let u1 := s.u + dt * (p.a * (p.b * s.v - s.u))
  if 30.0 ≤ v1 then (true, { v := p.c, u := u1 + p.d })
  else (false, { v := v1, u := u1 })

/-! ## Material switching (src/core/haptic_system.py change_material) -/

/-- Material keys from `src/core/config.py`, in dictionary order; these
become `self.material_keys` in `HapticSystem.__init__`. -/
def material_keys : List String :=
  ["Glass", "Metal", "Wood", "Plastic", "Fabric", "Ceramic", "Rubber"]

/-- Roughness values `materials[k].r` from `src/core/config.py`. -/
def material_r (k : String) : ℚ :=
  if k = "Glass" then 0.05
  else if k = "Metal" then 1.2
  else if k = "Wood" then 1.8
  else if k = "Plastic" then 0.3
  else if k = "Fabric" then 0.02
  else if k = "Ceramic" then 0.6
  else if k = "Rubber" then 0.4
  else 0

/-- Frequency factors `materials[k].f` from `src/core/config.py`. -/
def material_f (k : String) : ℚ :=
  if k = "Glass" then 1.6
  else if k = "Metal" then 1.0
  else if k = "Wood" then 0.8
  else if k = "Plastic" then 1.1
  else if k = "Fabric" then 0.6
  else if k = "Ceramic" then 1.3
  else if k = "Rubber" then 0.7
  else 0

/-- Configured base frequency `sound.ra_motion_base_hz = 30`. -/
def ra_motion_base_hz : ℚ := 30

/-- Configured click frequency `sound.ra_click_hz = 150`. -/
def ra_click_hz_cfg : ℚ := 150

/-- Per-material motion frequency `int(snd_cfg['ra_motion_base_hz'] * f)`;
Python `int()` truncates toward zero, which on these positive products is
the floor. -/
def ra_motion_hz (k : String) : ℤ := ⌊ra_motion_base_hz * material_f k⌋

/-- Per-material click frequency `int(snd_cfg['ra_click_hz'] * f)`. -/
def ra_click_hz (k : String) : ℤ := ⌊ra_click_hz_cfg * material_f k⌋

/-- Identity of a cached sound: the components of the string cache key
role, material, frequency used in `_create_material_sounds`. -/
structure SoundKey where
  role : String
  mat : String
  hz : ℤ
deriving Repr, DecidableEq

/-- The attributes of `HapticSystem` (and of its `AudioPlayer` channel 1)
that `change_material` reads or writes: current material key and
roughness, the three selected sounds, and the continuous-playback state
of channel 1 (the looped sound and its volume, if playing). -/
structure MaterialSysState where
  current_material_key : String
  current_roughness : ℚ
  ra_motion_sound : SoundKey
  ra_click_sound : SoundKey
  ra_motion_loop_sound : SoundKey
  channel1 : Option (SoundKey × ℚ)
  current_volume : ℚ
deriving Repr, DecidableEq

/-- Embedding of `HapticSystem._update_current_material_sounds`
(src/core/haptic_system.py lines 137-149): select the cached sounds of
the current material. -/
def update_current_material_sounds (s : MaterialSysState) : MaterialSysState :=
  let k := s.current_material_key
  { s with
    ra_motion_sound := { role := "ra_motion", mat := k, hz := ra_motion_hz k }
    ra_click_sound := { role := "ra_click", mat := k, hz := ra_click_hz k }
    ra_motion_loop_sound := { role := "ra_motion_loop", mat := k, hz := ra_motion_hz k } }

/-- Embedding of `HapticSystem.change_material`
(src/core/haptic_system.py lines 151-172). -/
def change_material (s : MaterialSysState) (material_index : ℤ) :
    Bool × MaterialSysState :=
  if 0 ≤ material_index ∧ material_index < (material_keys.length : ℤ) then
    let key := material_keys.getD material_index.toNat "Glass"
    let s1 := { s with current_material_key := key, current_roughness := material_r key }
    let s2 := if s1.channel1.isSome then { s1 with channel1 := none } else s1
    let s3 := update_current_material_sounds s2
    (true, { s3 with channel1 := some (s3.ra_motion_loop_sound, s3.current_volume) })
  else (false, s)

/-! ## Claim C1: the rate-to-volume map -/

/-- Pointwise epsilon-delta continuity of a rational-valued map at a
point; the formal reading of the spec's continuity requirement on the
rate-to-volume curve. -/
def QContinuousAt (f : ℚ → ℚ) (x : ℚ) : Prop :=
  ∀ ε : ℚ, 0 < ε → ∃ δ : ℚ, 0 < δ ∧ ∀ y : ℚ, |y - x| < δ → |f y - f x| < ε

lemma srv_of_nonpos {mn mx : ℚ} {r : ℚ} (h : r ≤ 0) :
    spike_rate_to_volume mn mx r = 0 := by
  simp only [spike_rate_to_volume]
  rw [if_pos h]
  norm_num

lemma srv_of_low {mn mx : ℚ} {r : ℚ} (h0 : 0 < r) (h : r ≤ 20) :
    spike_rate_to_volume mn mx r = mn := by
  have h1 : ¬ r ≤ (0 : ℚ) := not_le.mpr h0
  simp only [spike_rate_to_volume]
  norm_num [h1, h]

lemma srv_of_high {mn mx : ℚ} {r : ℚ} (h : 120 ≤ r) :
    spike_rate_to_volume mn mx r = mx := by
  have h1 : ¬ r ≤ (0 : ℚ) := by linarith
  have h2 : ¬ r ≤ (20 : ℚ) := by linarith
  simp only [spike_rate_to_volume]
  norm_num [h1, h2, h]

lemma srv_of_mid {mn mx : ℚ} {r : ℚ} (hmn : 0 ≤ mn) (hord : mn ≤ mx)
    (hmx : mx ≤ 1) (h1 : 20 < r) (h2 : r < 120) :
    spike_rate_to_volume mn mx r = mn + ((r - 20) / (120 - 20)) * (mx - mn) := by
  have hn0 : ¬ r ≤ (0 : ℚ) := by linarith
  have hn1 : ¬ r ≤ (20 : ℚ) := by linarith
  have hn2 : ¬ (120 : ℚ) ≤ r := by linarith
  have hfrac0 : 0 ≤ (r - 20) / 100 := div_nonneg (by linarith) (by norm_num)
  have hfrac1 : (r - 20) / 100 ≤ 1 := by
    rw [div_le_one (by norm_num : (0:ℚ) < 100)]; linarith
  have hd : 0 ≤ mx - mn := by linarith
  have hlo : 0 ≤ mn + ((r - 20) / 100) * (mx - mn) := by
    nlinarith [mul_nonneg hfrac0 hd]
  have hhi : mn + ((r - 20) / 100) * (mx - mn) ≤ 1 := by
    nlinarith [mul_le_mul_of_nonneg_right hfrac1 hd]
  simp only [spike_rate_to_volume]
  norm_num [hn0, hn1, hn2, npClip]
  rw [max_eq_left hlo, min_eq_left hhi]

lemma srv_nonneg {mn mx : ℚ} (hmn : 0 ≤ mn) (hord : mn ≤ mx) (r : ℚ) :
    0 ≤ spike_rate_to_volume mn mx r := by
  rcases le_or_lt r 0 with h | h
  · rw [srv_of_nonpos h]
  · rcases le_or_lt r 20 with h2 | h2
    · rw [srv_of_low h h2]; exact hmn
    · rcases lt_or_le r 120 with h3 | h3
      · simp only [spike_rate_to_volume]
        have hn0 : ¬ r ≤ (0 : ℚ) := by linarith
        have hn1 : ¬ r ≤ (20 : ℚ) := by linarith
        have hn2 : ¬ (120 : ℚ) ≤ r := by linarith
        norm_num [hn0, hn1, hn2, npClip]
      · rw [srv_of_high h3]; linarith

lemma srv_ge_min {mn mx : ℚ} (hmn : 0 ≤ mn) (hord : mn ≤ mx) (hmx : mx ≤ 1)
    {s : ℚ} (hs : 0 < s) : mn ≤ spike_rate_to_volume mn mx s := by
  rcases le_or_lt s 20 with h2 | h2
  · rw [srv_of_low hs h2]
  · rcases lt_or_le s 120 with h3 | h3
    · rw [srv_of_mid hmn hord hmx h2 h3]
      have hfrac0 : 0 ≤ (s - 20) / (120 - 20) :=
        div_nonneg (by linarith) (by norm_num)
      nlinarith [mul_nonneg hfrac0 (by linarith : (0:ℚ) ≤ mx - mn)]
    · rw [srv_of_high h3]; exact hord

lemma srv_le_max {mn mx : ℚ} (hmn : 0 ≤ mn) (hord : mn ≤ mx) (hmx : mx ≤ 1)
    {s : ℚ} (hs : 0 < s) : spike_rate_to_volume mn mx s ≤ mx := by
  rcases le_or_lt s 20 with h2 | h2
  · rw [srv_of_low hs h2]; exact hord
  · rcases lt_or_le s 120 with h3 | h3
    · rw [srv_of_mid hmn hord hmx h2 h3]
      have hfrac1 : (s - 20) / (120 - 20) ≤ 1 := by
        rw [div_le_one (by norm_num : (0:ℚ) < 120 - 20)]; linarith
      nlinarith [mul_le_mul_of_nonneg_right hfrac1 (by linarith : (0:ℚ) ≤ mx - mn)]
    · rw [srv_of_high h3]

lemma srv_mono {mn mx : ℚ} (hmn : 0 ≤ mn) (hord : mn ≤ mx) (hmx : mx ≤ 1) :
    ∀ r s : ℚ, r ≤ s →
      spike_rate_to_volume mn mx r ≤ spike_rate_to_volume mn mx s := by
  intro r s hrs
  rcases le_or_lt r 0 with hr0 | hr0
  · rw [srv_of_nonpos hr0]; exact srv_nonneg hmn hord s
  · have hs0 : 0 < s := lt_of_lt_of_le hr0 hrs
    rcases le_or_lt r 20 with hr20 | hr20
    · rw [srv_of_low hr0 hr20]; exact srv_ge_min hmn hord hmx hs0
    · rcases lt_or_le r 120 with hr120 | hr120
      · rw [srv_of_mid hmn hord hmx hr20 hr120]
        rcases lt_or_le s 120 with hs120 | hs120
        · rw [srv_of_mid hmn hord hmx (by linarith) hs120]
          have hd : (0:ℚ) ≤ mx - mn := by linarith
          have key : 0 ≤ ((s - r) / (120 - 20)) * (mx - mn) :=
            mul_nonneg (div_nonneg (by linarith) (by norm_num)) hd
          nlinarith [key]
        · rw [srv_of_high hs120]
          have := srv_le_max hmn hord hmx hr0
          rw [srv_of_mid hmn hord hmx hr20 hr120] at this
          exact this
      · rw [srv_of_high hr120, srv_of_high (le_trans hr120 hrs)]

lemma srv_lipschitz {mn mx : ℚ} (hmn : 0 ≤ mn) (hord : mn ≤ mx) (hmx : mx ≤ 1) :
    ∀ r s : ℚ, 0 < r → r ≤ s →
      spike_rate_to_volume mn mx s - spike_rate_to_volume mn mx r ≤ s - r := by
  intro r s hr0 hrs
  have hs0 : 0 < s := lt_of_lt_of_le hr0 hrs
  have hd1 : mx - mn ≤ 1 := by linarith
  rcases le_or_lt r 20 with hr20 | hr20
  · rw [srv_of_low hr0 hr20]
    rcases le_or_lt s 20 with hs20 | hs20
    · rw [srv_of_low hs0 hs20]; linarith
    · rcases lt_or_le s 120 with hs120 | hs120
      · rw [srv_of_mid hmn hord hmx hs20 hs120]
        have e2 : ((s - 20) / (120 - 20)) * (mx - mn) ≤ (s - 20) / (120 - 20) :=
          mul_le_of_le_one_right (div_nonneg (by linarith) (by norm_num)) hd1
        have e3 : (s - 20) / (120 - 20) ≤ s - 20 := by
          rw [div_le_iff₀ (by norm_num : (0:ℚ) < 120 - 20)]
          nlinarith
        linarith
      · rw [srv_of_high hs120]; linarith
  · rcases lt_or_le r 120 with hr120 | hr120
    · rw [srv_of_mid hmn hord hmx hr20 hr120]
      rcases lt_or_le s 120 with hs120 | hs120
      · rw [srv_of_mid hmn hord hmx (by linarith) hs120]
        have e1 : mn + ((s - 20) / (120 - 20)) * (mx - mn)
            - (mn + ((r - 20) / (120 - 20)) * (mx - mn))
            = ((s - r) / (120 - 20)) * (mx - mn) := by ring
        have e2 : ((s - r) / (120 - 20)) * (mx - mn) ≤ (s - r) / (120 - 20) :=
          mul_le_of_le_one_right (div_nonneg (by linarith) (by norm_num)) hd1
        have e3 : (s - r) / (120 - 20) ≤ s - r := by
          rw [div_le_iff₀ (by norm_num : (0:ℚ) < 120 - 20)]
          nlinarith
        linarith
      · rw [srv_of_high hs120]
        have e1 : mx - (mn + ((r - 20) / (120 - 20)) * (mx - mn))
            = ((120 - r) / (120 - 20)) * (mx - mn) := by ring
        have e2 : ((120 - r) / (120 - 20)) * (mx - mn) ≤ (120 - r) / (120 - 20) :=
          mul_le_of_le_one_right (div_nonneg (by linarith) (by norm_num)) hd1
        have e3 : (120 - r) / (120 - 20) ≤ 120 - r := by
          rw [div_le_iff₀ (by norm_num : (0:ℚ) < 120 - 20)]
          nlinarith
        linarith
    · rw [srv_of_high hr120, srv_of_high (le_trans hr120 hrs)]; linarith

lemma srv_abs_sub_le {mn mx : ℚ} (hmn : 0 ≤ mn) (hord : mn ≤ mx) (hmx : mx ≤ 1)
    {r s : ℚ} (hr0 : 0 < r) (hs0 : 0 < s) :
    |spike_rate_to_volume mn mx s - spike_rate_to_volume mn mx r| ≤ |s - r| := by
  rcases le_total r s with h | h
  · have hm := srv_mono hmn hord hmx r s h
    have hl := srv_lipschitz hmn hord hmx r s hr0 h
    rw [abs_of_nonneg (by linarith), abs_of_nonneg (by linarith)]
    exact hl
  · have hm := srv_mono hmn hord hmx s r h
    have hl := srv_lipschitz hmn hord hmx s r hs0 h
    rw [abs_of_nonpos (by linarith), abs_of_nonpos (by linarith)]
    linarith

lemma srv_continuousAt_ne_zero {mn mx : ℚ} (hmn : 0 ≤ mn) (hord : mn ≤ mx)
    (hmx : mx ≤ 1) (x : ℚ) (hx : x ≠ 0) :
    QContinuousAt (spike_rate_to_volume mn mx) x := by
  intro ε hε
  rcases lt_or_gt_of_ne hx with hneg | hpos
  · refine ⟨-x, by linarith, fun y hy => ?_⟩
    have hb := abs_lt.mp hy
    have hy0 : y ≤ 0 := by linarith [hb.2]
    rw [srv_of_nonpos hy0, srv_of_nonpos (le_of_lt hneg)]
    simpa using hε
  · refine ⟨min x ε, lt_min hpos hε, fun y hy => ?_⟩
    have h1 : |y - x| < x := lt_of_lt_of_le hy (min_le_left _ _)
    have h2 : |y - x| < ε := lt_of_lt_of_le hy (min_le_right _ _)
    have hb := abs_lt.mp h1
    have hy0 : 0 < y := by linarith [hb.1]
    calc |spike_rate_to_volume mn mx y - spike_rate_to_volume mn mx x|
        ≤ |y - x| := srv_abs_sub_le hmn hord hmx hpos hy0
      _ < ε := h2

/-- Claim C1, counterexample: with the configured volume scales
(min 0.7, max 1.0 from src/core/config.py) the rate-to-volume map of
`_spike_rate_to_volume` is NOT continuous on its whole domain: it jumps
from 0 to 0.7 at spike rate 0, refuting the claim's continuity clause. -/
theorem spike_rate_to_volume_discontinuous_at_zero :
    ¬ QContinuousAt (spike_rate_to_volume 0.7 1.0) 0 := by
  intro h
  obtain ⟨δ, hδ, hy⟩ := h 0.7 (by norm_num)
  have hy0 : (0:ℚ) < min (δ / 2) 1 := lt_min (by linarith) one_pos
  have hyle : min (δ / 2) 1 ≤ (20:ℚ) := le_trans (min_le_right _ _) (by norm_num)
  have habs : |min (δ / 2) 1 - 0| < δ := by
    rw [sub_zero, abs_of_pos hy0]
    exact lt_of_le_of_lt (min_le_left _ _) (by linarith)
  have hcontra := hy (min (δ / 2) 1) habs
  rw [srv_of_low hy0 hyle, srv_of_nonpos (le_refl (0:ℚ))] at hcontra
  rw [abs_of_nonneg (by norm_num : (0:ℚ) ≤ 0.7 - 0)] at hcontra
  exact absurd hcontra (by norm_num)

/-- Claim C1, amended: for volume scales with 0 ≤ min < max ≤ 1 (the
configuration has 0.7 and 1.0) the map of `_spike_rate_to_volume`
returns 0 for r ≤ 0, min for 0 < r ≤ 20, max for r ≥ 120, and the exact
linear interpolation for 20 < r < 120; it is monotone on the whole
domain, continuous at every nonzero rate (at rate 0 it jumps from 0 to
min_volume, so the claim's continuity clause holds only away from 0),
and at r = 70 its value lies strictly between min and max. -/
theorem spike_rate_to_volume_piecewise_monotone (mn mx : ℚ)
    (hmn : 0 ≤ mn) (hlt : mn < mx) (hmx : mx ≤ 1) :
    (∀ r : ℚ, r ≤ 0 → spike_rate_to_volume mn mx r = 0) ∧
    (∀ r : ℚ, 0 < r → r ≤ 20 → spike_rate_to_volume mn mx r = mn) ∧
    (∀ r : ℚ, 120 ≤ r → spike_rate_to_volume mn mx r = mx) ∧
    (∀ r : ℚ, 20 < r → r < 120 →
      spike_rate_to_volume mn mx r = mn + ((r - 20) / (120 - 20)) * (mx - mn)) ∧
    (∀ r s : ℚ, r ≤ s →
      spike_rate_to_volume mn mx r ≤ spike_rate_to_volume mn mx s) ∧
    (∀ x : ℚ, x ≠ 0 → QContinuousAt (spike_rate_to_volume mn mx) x) ∧
    (mn < spike_rate_to_volume mn mx 70 ∧ spike_rate_to_volume mn mx 70 < mx) := by
  have hord : mn ≤ mx := le_of_lt hlt
  refine ⟨fun r h => srv_of_nonpos h,
          fun r h0 h => srv_of_low h0 h,
          fun r h => srv_of_high h,
          fun r h1 h2 => srv_of_mid hmn hord hmx h1 h2,
          srv_mono hmn hord hmx,
          srv_continuousAt_ne_zero hmn hord hmx,
          ?_, ?_⟩
  · rw [srv_of_mid hmn hord hmx (by norm_num) (by norm_num)]
    nlinarith
  · rw [srv_of_mid hmn hord hmx (by norm_num) (by norm_num)]
    nlinarith

/-- Witness for C1's amended theorem at the configured scales 0.7 and
1.0: the hypotheses hold and the piecewise description follows. -/
theorem spike_rate_to_volume_piecewise_monotone_witness :
    (0:ℚ) ≤ 0.7 ∧ (0.7:ℚ) < 1.0 ∧ (1.0:ℚ) ≤ 1 ∧
    ((∀ r : ℚ, r ≤ 0 → spike_rate_to_volume 0.7 1.0 r = 0) ∧
     (∀ r : ℚ, 0 < r → r ≤ 20 → spike_rate_to_volume 0.7 1.0 r = 0.7) ∧
     (∀ r : ℚ, 120 ≤ r → spike_rate_to_volume 0.7 1.0 r = 1.0) ∧
     (∀ r : ℚ, 20 < r → r < 120 →
       spike_rate_to_volume 0.7 1.0 r = 0.7 + ((r - 20) / (120 - 20)) * (1.0 - 0.7)) ∧
     (∀ r s : ℚ, r ≤ s →
       spike_rate_to_volume 0.7 1.0 r ≤ spike_rate_to_volume 0.7 1.0 s) ∧
     (∀ x : ℚ, x ≠ 0 → QContinuousAt (spike_rate_to_volume 0.7 1.0) x) ∧
     ((0.7:ℚ) < spike_rate_to_volume 0.7 1.0 70 ∧
      spike_rate_to_volume 0.7 1.0 70 < 1.0)) :=
  ⟨by norm_num, by norm_num, by norm_num,
   spike_rate_to_volume_piecewise_monotone 0.7 1.0 (by norm_num) (by norm_num)
     (by norm_num)⟩

/-! ## Claim C2: volumes stay in the unit interval -/

lemma npClip_unit_mem (x : ℚ) : 0 ≤ npClip x 0 1 ∧ npClip x 0 1 ≤ 1 :=
  ⟨le_min (le_max_right x 0) zero_le_one, min_le_right _ _⟩

lemma srv_mid_clip {mn mx : ℚ} {r : ℚ} (h1 : 20 < r) (h2 : r < 120) :
    spike_rate_to_volume mn mx r =
      npClip (mn + ((r - 20) / (120 - 20)) * (mx - mn)) 0 1 := by
  have hn0 : ¬ r ≤ (0 : ℚ) := by linarith
  have hn1 : ¬ r ≤ (20 : ℚ) := by linarith
  have hn2 : ¬ (120 : ℚ) ≤ r := by linarith
  simp only [spike_rate_to_volume]
  norm_num [hn0, hn1, hn2]

lemma srv_mem_unit {mn mx : ℚ} (h1 : 0 ≤ mn) (h2 : mn ≤ 1) (h3 : 0 ≤ mx)
    (h4 : mx ≤ 1) (r : ℚ) :
    0 ≤ spike_rate_to_volume mn mx r ∧ spike_rate_to_volume mn mx r ≤ 1 := by
  rcases le_or_lt r 0 with h | h
  · rw [srv_of_nonpos h]; norm_num
  · rcases le_or_lt r 20 with hl | hl
    · rw [srv_of_low h hl]; exact ⟨h1, h2⟩
    · rcases lt_or_le r 120 with hm | hm
      · rw [srv_mid_clip hl hm]; exact npClip_unit_mem _
      · rw [srv_of_high hm]; exact ⟨h3, h4⟩

/-- The computed target volume of one tick, read off the record built by
`update_ra_motion_volume`; equal by definitional unfolding. -/
lemma update_target_volume_def (mn mx : ℚ) (s : HapticState) (fired : Bool)
    (now : ℚ) :
    (update_ra_motion_volume mn mx s fired now).target_volume =
      (if s.mouse_pressed ∧
          0 < (update_ra_motion_volume mn mx s fired now).current_spike_rate then
        spike_rate_to_volume mn mx
          (update_ra_motion_volume mn mx s fired now).current_spike_rate
      else 0.0) := rfl

/-- The volume-smoothing step of one tick, read off the record built by
`update_ra_motion_volume`; equal by definitional unfolding. -/
lemma update_current_volume_def (mn mx : ℚ) (s : HapticState) (fired : Bool)
    (now : ℚ) :
    (update_ra_motion_volume mn mx s fired now).current_volume =
      (let target := (update_ra_motion_volume mn mx s fired now).target_volume
       let smooth_factor :=
         if s.current_volume < target then volume_smooth_factor
         else volume_fast_decay_factor
       let cv0 := s.current_volume + (target - s.current_volume) * smooth_factor
       if |cv0 - target| < 0.005 then target else cv0) := rfl

lemma smooth_step_mem {v t f : ℚ} (hv0 : 0 ≤ v) (hv1 : v ≤ 1) (ht0 : 0 ≤ t)
    (ht1 : t ≤ 1) (hf0 : 0 ≤ f) (hf1 : f ≤ 1) :
    0 ≤ v + (t - v) * f ∧ v + (t - v) * f ≤ 1 := by
  constructor
  · nlinarith [mul_nonneg hv0 (by linarith : (0:ℚ) ≤ 1 - f), mul_nonneg ht0 hf0]
  · nlinarith [mul_nonneg (by linarith : (0:ℚ) ≤ 1 - v) (by linarith : (0:ℚ) ≤ 1 - f),
               mul_nonneg (by linarith : (0:ℚ) ≤ 1 - t) hf0]

lemma update_target_mem {mn mx : ℚ} (h1 : 0 ≤ mn) (h2 : mn ≤ 1) (h3 : 0 ≤ mx)
    (h4 : mx ≤ 1) (s : HapticState) (fired : Bool) (now : ℚ) :
    0 ≤ (update_ra_motion_volume mn mx s fired now).target_volume ∧
    (update_ra_motion_volume mn mx s fired now).target_volume ≤ 1 := by
  rw [update_target_volume_def]
  split_ifs with h
  · exact srv_mem_unit h1 h2 h3 h4 _
  · norm_num

lemma update_current_mem {mn mx : ℚ} (h1 : 0 ≤ mn) (h2 : mn ≤ 1) (h3 : 0 ≤ mx)
    (h4 : mx ≤ 1) (s : HapticState) (fired : Bool) (now : ℚ)
    (hc0 : 0 ≤ s.current_volume) (hc1 : s.current_volume ≤ 1) :
    0 ≤ (update_ra_motion_volume mn mx s fired now).current_volume ∧
    (update_ra_motion_volume mn mx s fired now).current_volume ≤ 1 := by
  obtain ⟨ht0, ht1⟩ := update_target_mem h1 h2 h3 h4 s fired now
  rw [update_current_volume_def]
  simp only
  split_ifs with hcmp hsnap hsnap
  · exact ⟨ht0, ht1⟩
  · exact smooth_step_mem hc0 hc1 ht0 ht1 (by norm_num [volume_smooth_factor])
      (by norm_num [volume_smooth_factor])
  · exact ⟨ht0, ht1⟩
  · exact smooth_step_mem hc0 hc1 ht0 ht1 (by norm_num [volume_fast_decay_factor])
      (by norm_num [volume_fast_decay_factor])

/-- Both volume fields lie in the unit interval. -/
def VolOK (s : HapticState) : Prop :=
  0 ≤ s.target_volume ∧ s.target_volume ≤ 1 ∧
  0 ≤ s.current_volume ∧ s.current_volume ≤ 1

lemma applyAction_volOK {mn mx : ℚ} (h1 : 0 ≤ mn) (h2 : mn ≤ 1) (h3 : 0 ≤ mx)
    (h4 : mx ≤ 1) (s : HapticState) (hs : VolOK s) (a : HapticAction) :
    VolOK (applyAction mn mx s a) := by
  obtain ⟨ht0, ht1, hc0, hc1⟩ := hs
  cases a with
  | tick fired now =>
      obtain ⟨p0, p1⟩ := update_target_mem h1 h2 h3 h4 s fired now
      obtain ⟨q0, q1⟩ := update_current_mem h1 h2 h3 h4 s fired now hc0 hc1
      exact ⟨p0, p1, q0, q1⟩
  | press => exact ⟨ht0, ht1, hc0, hc1⟩
  | release =>
      simp only [VolOK, applyAction, mouse_release]
      norm_num

lemma runActions_volOK {mn mx : ℚ} (h1 : 0 ≤ mn) (h2 : mn ≤ 1) (h3 : 0 ≤ mx)
    (h4 : mx ≤ 1) :
    ∀ (l : List HapticAction) (s : HapticState), VolOK s →
      VolOK (runActions mn mx s l) := by
  intro l
  induction l with
  | nil => intro s hs; exact hs
  | cons a rest ih =>
      intro s hs
      exact ih _ (applyAction_volOK h1 h2 h3 h4 s hs a)

/-- Claim C2: starting from the initial state (both volumes 0), with the
configured min/max volume scales in [0,1], any finite sequence of
`step` ticks, `mouse_press` and `mouse_release` calls leaves both
`target_volume` and `current_volume` inside [0,1]. -/
theorem volume_state_in_unit_interval (mn mx : ℚ) (h1 : 0 ≤ mn) (h2 : mn ≤ 1)
    (h3 : 0 ≤ mx) (h4 : mx ≤ 1) (l : List HapticAction) :
    0 ≤ (runActions mn mx initState l).target_volume ∧
    (runActions mn mx initState l).target_volume ≤ 1 ∧
    0 ≤ (runActions mn mx initState l).current_volume ∧
    (runActions mn mx initState l).current_volume ≤ 1 :=
  runActions_volOK h1 h2 h3 h4 l initState
    (by simp only [VolOK, initState]; norm_num)

/-- Witness for C2 at the configured scales 0.7 and 1.0 on a concrete
adversarial call sequence (press, ticks with spikes, release, tick). -/
theorem volume_state_in_unit_interval_witness :
    (0:ℚ) ≤ 0.7 ∧ (0.7:ℚ) ≤ 1 ∧ (0:ℚ) ≤ 1.0 ∧ (1.0:ℚ) ≤ 1 ∧
    (0 ≤ (runActions 0.7 1.0 initState
        [.press, .tick true 0, .tick true 0.001, .release,
         .tick false 0.002]).target_volume ∧
     (runActions 0.7 1.0 initState
        [.press, .tick true 0, .tick true 0.001, .release,
         .tick false 0.002]).target_volume ≤ 1 ∧
     0 ≤ (runActions 0.7 1.0 initState
        [.press, .tick true 0, .tick true 0.001, .release,
         .tick false 0.002]).current_volume ∧
     (runActions 0.7 1.0 initState
        [.press, .tick true 0, .tick true 0.001, .release,
         .tick false 0.002]).current_volume ≤ 1) :=
  ⟨by norm_num, by norm_num, by norm_num, by norm_num,
   volume_state_in_unit_interval 0.7 1.0 (by norm_num) (by norm_num)
     (by norm_num) (by norm_num)
     [.press, .tick true 0, .tick true 0.001, .release, .tick false 0.002]⟩

/-! ## Claim C3: asymmetric volume smoothing -/

/-- Claim C3: on every tick the controller updates `current_volume` by
`current_volume += (target_volume - current_volume) * smoothing_factor`,
where the factor is the attack rate 0.4 when target > current and the
decay rate 0.8 otherwise; the decay factor is strictly greater than the
attack factor; and after the update `current_volume` snaps to
`target_volume` whenever their distance is below 0.005. -/
theorem volume_smoothing_asymmetric (mn mx : ℚ) (s : HapticState) (fired : Bool)
    (now : ℚ) :
    ((update_ra_motion_volume mn mx s fired now).current_volume =
      (let target := (update_ra_motion_volume mn mx s fired now).target_volume
       let smooth_factor :=
         if s.current_volume < target then volume_smooth_factor
         else volume_fast_decay_factor
       let cv0 := s.current_volume + (target - s.current_volume) * smooth_factor
       if |cv0 - target| < 0.005 then target else cv0)) ∧
    volume_smooth_factor < volume_fast_decay_factor :=
  ⟨update_current_volume_def mn mx s fired now,
   by norm_num [volume_smooth_factor, volume_fast_decay_factor]⟩

/-! ## Claim C4: press-state override and fast decay -/

/-- One smoothing tick of the code's volume update specialized to target
volume 0 (the value forced whenever the press state is false), with the
smoothing factor as a parameter so that the actual decay factor can be
compared against the hypothetical attack factor. -/
def smoothTowardZeroStep (factor v : ℚ) : ℚ :=
  let cv0 := v + (0 - v) * factor
  if |cv0 - 0| < 0.005 then 0 else cv0

/-- Iterated zero-target smoothing ticks. -/
def smoothTowardZeroIter (factor : ℚ) : ℕ → ℚ → ℚ
  | 0, v => v
  | n + 1, v => smoothTowardZeroStep factor (smoothTowardZeroIter factor n v)

lemma stz_step_nonneg {f v : ℚ} (hf : f ≤ 1) (hv : 0 ≤ v) :
    0 ≤ smoothTowardZeroStep f v := by
  simp only [smoothTowardZeroStep]
  have h0 : 0 ≤ v + (0 - v) * f := by nlinarith
  split_ifs with h
  · exact le_refl 0
  · exact h0

lemma stz_step_mono {f : ℚ} (hf1 : f ≤ 1) {v w : ℚ}
    (hv : 0 ≤ v) (hvw : v ≤ w) :
    smoothTowardZeroStep f v ≤ smoothTowardZeroStep f w := by
  simp only [smoothTowardZeroStep]
  have ha0 : 0 ≤ v + (0 - v) * f := by nlinarith
  have hab : v + (0 - v) * f ≤ w + (0 - w) * f := by nlinarith
  have hb0 : 0 ≤ w + (0 - w) * f := le_trans ha0 hab
  split_ifs with h1 h2 h2
  · exact le_refl 0
  · linarith
  · exfalso
    rw [sub_zero, abs_of_nonneg hb0] at h2
    rw [sub_zero, abs_of_nonneg ha0] at h1
    exact h1 (lt_of_le_of_lt hab h2)
  · linarith

lemma stz_step_decay_le_attack {v : ℚ} (hv : 0 ≤ v) :
    smoothTowardZeroStep volume_fast_decay_factor v ≤
    smoothTowardZeroStep volume_smooth_factor v := by
  simp only [smoothTowardZeroStep, volume_fast_decay_factor, volume_smooth_factor]
  have ha0 : 0 ≤ v + (0 - v) * 0.8 := by nlinarith
  have hb0 : 0 ≤ v + (0 - v) * 0.4 := by nlinarith
  have hab : v + (0 - v) * 0.8 ≤ v + (0 - v) * 0.4 := by nlinarith
  split_ifs with h1 h2 h2
  · exact le_refl 0
  · linarith
  · exfalso
    rw [sub_zero, abs_of_nonneg hb0] at h2
    rw [sub_zero, abs_of_nonneg ha0] at h1
    exact h1 (lt_of_le_of_lt hab h2)
  · linarith

lemma stz_iter_nonneg {f : ℚ} (hf : f ≤ 1) (n : ℕ) {v : ℚ} (hv : 0 ≤ v) :
    0 ≤ smoothTowardZeroIter f n v := by
  induction n with
  | zero => exact hv
  | succ n ih => exact stz_step_nonneg hf ih

lemma stz_iter_decay_le_attack (n : ℕ) {v : ℚ} (hv : 0 ≤ v) :
    smoothTowardZeroIter volume_fast_decay_factor n v ≤
    smoothTowardZeroIter volume_smooth_factor n v := by
  induction n with
  | zero => exact le_refl v
  | succ n ih =>
      have hd0 : 0 ≤ smoothTowardZeroIter volume_fast_decay_factor n v :=
        stz_iter_nonneg (by norm_num [volume_fast_decay_factor]) n hv
      calc smoothTowardZeroStep volume_fast_decay_factor
              (smoothTowardZeroIter volume_fast_decay_factor n v)
          ≤ smoothTowardZeroStep volume_fast_decay_factor
              (smoothTowardZeroIter volume_smooth_factor n v) :=
            stz_step_mono (by norm_num [volume_fast_decay_factor]) hd0 ih
        _ ≤ smoothTowardZeroStep volume_smooth_factor
              (smoothTowardZeroIter volume_smooth_factor n v) :=
            stz_step_decay_le_attack
              (stz_iter_nonneg (by norm_num [volume_smooth_factor]) n hv)

/-- Claim C4: (1) on any tick with the press state false the computed
`target_volume` is 0 regardless of the spike rate; (2) immediately after
`mouse_release` both volumes are 0, and on the next tick `target_volume`
and `current_volume` are again 0; (3) a released tick performs exactly
the zero-target smoothing step with the decay factor 0.8; and (4) the
decayed volume is, after any number of ticks, at most the volume the
hypothetical attack factor 0.4 would leave, hence it is within any
epsilon of 0 at least as fast. -/
theorem release_override_and_fast_decay :
    (∀ (mn mx : ℚ) (s : HapticState) (fired : Bool) (now : ℚ),
      s.mouse_pressed = false →
      (update_ra_motion_volume mn mx s fired now).target_volume = 0) ∧
    (∀ (mn mx : ℚ) (s : HapticState) (fired : Bool) (now : ℚ),
      (mouse_release s).target_volume = 0 ∧
      (mouse_release s).current_volume = 0 ∧
      (update_ra_motion_volume mn mx (mouse_release s) fired now).target_volume = 0 ∧
      (update_ra_motion_volume mn mx (mouse_release s) fired now).current_volume = 0) ∧
    (∀ (mn mx : ℚ) (s : HapticState) (fired : Bool) (now : ℚ),
      s.mouse_pressed = false → 0 ≤ s.current_volume →
      (update_ra_motion_volume mn mx s fired now).current_volume =
        smoothTowardZeroStep volume_fast_decay_factor s.current_volume) ∧
    (∀ (n : ℕ) (v ε : ℚ), 0 ≤ v →
      smoothTowardZeroIter volume_fast_decay_factor n v ≤
        smoothTowardZeroIter volume_smooth_factor n v ∧
      (smoothTowardZeroIter volume_smooth_factor n v ≤ ε →
        smoothTowardZeroIter volume_fast_decay_factor n v ≤ ε)) := by
  have htarget : ∀ (mn mx : ℚ) (s : HapticState) (fired : Bool) (now : ℚ),
      s.mouse_pressed = false →
      (update_ra_motion_volume mn mx s fired now).target_volume = 0 := by
    intro mn mx s fired now hp
    rw [update_target_volume_def]
    rw [if_neg]
    · norm_num
    · rw [hp]; simp
  have hstep : ∀ (mn mx : ℚ) (s : HapticState) (fired : Bool) (now : ℚ),
      s.mouse_pressed = false → 0 ≤ s.current_volume →
      (update_ra_motion_volume mn mx s fired now).current_volume =
        smoothTowardZeroStep volume_fast_decay_factor s.current_volume := by
    intro mn mx s fired now hp hv
    rw [update_current_volume_def]
    simp only [htarget mn mx s fired now hp]
    rw [if_neg (not_lt.mpr hv)]
    rfl
  refine ⟨htarget, ?_, hstep, ?_⟩
  · intro mn mx s fired now
    have hp : (mouse_release s).mouse_pressed = false := rfl
    have hv : (mouse_release s).current_volume = 0 := by
      simp [mouse_release]; norm_num
    refine ⟨by simp [mouse_release]; norm_num, hv, htarget mn mx _ fired now hp, ?_⟩
    rw [hstep mn mx _ fired now hp (le_of_eq hv.symm), hv]
    simp only [smoothTowardZeroStep]
    norm_num
  · intro n v ε hv
    refine ⟨stz_iter_decay_le_attack n hv, fun h => le_trans (stz_iter_decay_le_attack n hv) h⟩

/-- Witness for C4 on concrete inputs: a released state with residual
volume 1/2, one tick, and three iterations of both smoothing factors. -/
theorem release_override_and_fast_decay_witness :
    ({ initState with current_volume := 0.5 } : HapticState).mouse_pressed = false ∧
    (0:ℚ) ≤ ({ initState with current_volume := 0.5 } : HapticState).current_volume ∧
    (update_ra_motion_volume 0.7 1.0 { initState with current_volume := 0.5 }
        true 0).target_volume = 0 ∧
    (update_ra_motion_volume 0.7 1.0 { initState with current_volume := 0.5 }
        true 0).current_volume =
      smoothTowardZeroStep volume_fast_decay_factor 0.5 ∧
    smoothTowardZeroIter volume_fast_decay_factor 3 0.5 ≤
      smoothTowardZeroIter volume_smooth_factor 3 0.5 := by
  refine ⟨rfl, by norm_num [initState], ?_, ?_, ?_⟩
  · exact release_override_and_fast_decay.1 0.7 1.0 _ true 0 rfl
  · exact release_override_and_fast_decay.2.2.1 0.7 1.0 _ true 0 rfl
      (by norm_num [initState])
  · exact (release_override_and_fast_decay.2.2.2 3 0.5 1 (by norm_num)).1

/-! ## Claim C5: spike-reset invariant of the neuron integrator -/

/-- Claim C5 (spec-modelled, the integrator file is missing from src/):
whenever a step of the Izhikevich integrator detects a spike (the
pre-reset membrane potential reaches 30.0), the state after the step has
v equal to exactly c and u equal to the recovery value computed in that
step before the reset, plus d. -/
theorem izhikevich_spike_reset_invariant (p : NeuronParams) (s : NeuronState)
    (input_current dt : ℚ) (h : (izh_step p s input_current dt).1 = true) :
    (izh_step p s input_current dt).2.v = p.c ∧
    (izh_step p s input_current dt).2.u =
      (s.u + dt * (p.a * (p.b * s.v - s.u))) + p.d := by
  by_cases hv : (30.0 : ℚ) ≤
      s.v + dt * (0.04 * s.v ^ 2 + 5 * s.v + 140 - s.u + input_current)
  · have hstep : izh_step p s input_current dt =
        (true, { v := p.c, u := (s.u + dt * (p.a * (p.b * s.v - s.u))) + p.d }) := by
      simp only [izh_step, if_pos hv]
    rw [hstep]
    exact ⟨rfl, rfl⟩
  · exfalso
    simp only [izh_step, if_neg hv] at h
    exact Bool.false_ne_true h

/-- Witness for C5: the RA-click parameters (a 0.3, b 0.25, c -65, d 6
from src/core/config.py) at state v 29, u 0 with zero current and
dt 1 ms produce a spike, after which v is exactly -65 and u is the
pre-reset recovery value plus 6. -/
theorem izhikevich_spike_reset_invariant_witness :
    (izh_step ⟨0.3, 0.25, -65, 6⟩ ⟨29, 0⟩ 0 1).1 = true ∧
    (izh_step ⟨0.3, 0.25, -65, 6⟩ ⟨29, 0⟩ 0 1).2.v = -65 ∧
    (izh_step ⟨0.3, 0.25, -65, 6⟩ ⟨29, 0⟩ 0 1).2.u =
      ((0 : ℚ) + 1 * (0.3 * (0.25 * 29 - 0))) + 6 :=
  ⟨by norm_num [izh_step],
   (izhikevich_spike_reset_invariant ⟨0.3, 0.25, -65, 6⟩ ⟨29, 0⟩ 0 1
     (by norm_num [izh_step])).1,
   (izhikevich_spike_reset_invariant ⟨0.3, 0.25, -65, 6⟩ ⟨29, 0⟩ 0 1
     (by norm_num [izh_step])).2⟩

/-! ## Claim C9: the spike-timestamp window -/

/-- The timestamp window written by one tick, read off the record built
by `update_ra_motion_volume`; equal by definitional unfolding. -/
lemma update_timestamps_def (mn mx : ℚ) (s : HapticState) (fired : Bool)
    (now : ℚ) :
    (update_ra_motion_volume mn mx s fired now).ra_motion_spike_timestamps =
      (if spike_rate_update_interval ≤ s.spike_rate_update_counter + 1 then
        (calculate_spike_rate now
          (s.ra_motion_spike_timestamps ++ [(now, fired)])).2
      else s.ra_motion_spike_timestamps ++ [(now, fired)]) := rfl

lemma calculate_spike_rate_snd (now : ℚ) (ts : List (ℚ × Bool)) :
    (calculate_spike_rate now ts).2 =
      ts.dropWhile (fun e => decide (e.1 < now - spike_window_duration_sec)) := rfl

lemma dropWhile_cutoff (c : ℚ) (l : List (ℚ × Bool))
    (hp : l.Pairwise (fun a b => a.1 ≤ b.1)) :
    ∀ e ∈ l.dropWhile (fun e => decide (e.1 < c)), c ≤ e.1 := by
  induction l with
  | nil => intro e he; simp [List.dropWhile] at he
  | cons a t ih =>
      intro e he
      rw [List.dropWhile_cons] at he
      by_cases hpa : a.1 < c
      · rw [if_pos (by simpa using hpa)] at he
        exact ih (List.Pairwise.of_cons hp) e he
      · rw [if_neg (by simpa using hpa)] at he
        rcases List.mem_cons.mp he with rfl | hmem
        · exact not_lt.mp hpa
        · have hrel := (List.pairwise_cons.mp hp).1 e hmem
          exact le_trans (not_lt.mp hpa) hrel

/-- Claim C9, counterexample: three ticks at times 0, 1/100 and 3/100
seconds (volume scales 0.7 and 1.0 as configured).  The third tick does
not recompute the spike rate (its counter is 1 < 2), so nothing is
pruned and the entry stamped 0 survives even though it is older than the
rolling cutoff 3/100 - 0.025: the claimed every-tick pruning is false. -/
theorem spike_window_stale_entry_retained :
    ((0 : ℚ), true) ∈ (update_ra_motion_volume 0.7 1.0
        (update_ra_motion_volume 0.7 1.0
          (update_ra_motion_volume 0.7 1.0 initState true 0)
          true (1/100))
        true (3/100)).ra_motion_spike_timestamps ∧
    (0 : ℚ) < 3/100 - spike_window_duration_sec := by
  have c1 : ¬ spike_rate_update_interval ≤ initState.spike_rate_update_counter + 1 := by
    norm_num [spike_rate_update_interval, initState]
  have e1 : (update_ra_motion_volume 0.7 1.0 initState true 0
      ).ra_motion_spike_timestamps = [(0, true)] := by
    rw [update_timestamps_def, if_neg c1]
    rfl
  have k1 : (update_ra_motion_volume 0.7 1.0 initState true 0
      ).spike_rate_update_counter = 1 := rfl
  have c2 : spike_rate_update_interval ≤
      (update_ra_motion_volume 0.7 1.0 initState true 0
        ).spike_rate_update_counter + 1 := by
    rw [k1]
    norm_num [spike_rate_update_interval]
  have e2 : (update_ra_motion_volume 0.7 1.0
      (update_ra_motion_volume 0.7 1.0 initState true 0) true (1/100)
      ).ra_motion_spike_timestamps = [(0, true), (1/100, true)] := by
    rw [update_timestamps_def, if_pos c2, calculate_spike_rate_snd, e1]
    simp only [List.singleton_append, List.dropWhile_cons]
    norm_num [spike_window_duration_sec]
  have k2 : (update_ra_motion_volume 0.7 1.0
      (update_ra_motion_volume 0.7 1.0 initState true 0) true (1/100)
      ).spike_rate_update_counter = 0 := rfl
  have c3 : ¬ spike_rate_update_interval ≤
      (update_ra_motion_volume 0.7 1.0
        (update_ra_motion_volume 0.7 1.0 initState true 0) true (1/100)
        ).spike_rate_update_counter + 1 := by
    rw [k2]
    norm_num [spike_rate_update_interval]
  have e3 : (update_ra_motion_volume 0.7 1.0
      (update_ra_motion_volume 0.7 1.0
        (update_ra_motion_volume 0.7 1.0 initState true 0) true (1/100))
      true (3/100)).ra_motion_spike_timestamps =
      [(0, true), (1/100, true), (3/100, true)] := by
    rw [update_timestamps_def, if_neg c3, e2]
    rfl
  constructor
  · rw [e3]
    simp
  · norm_num [spike_window_duration_sec]

/-- Claim C9, amended: every tick appends `(now, flag)` at the tail of
the window, but pruning happens only on the ticks that recompute the
spike rate (every `spike_rate_update_interval` = 2nd tick, inside
`_calculate_spike_rate`); on such a tick every entry older than
`now - window_duration` is dropped from the head, so that after it (for
a time-sorted window, as produced by the monotone wall clock) no
retained entry is older than the rolling cutoff. -/
theorem spike_window_append_and_prune (mn mx : ℚ) (s : HapticState)
    (fired : Bool) (now : ℚ) :
    (¬ spike_rate_update_interval ≤ s.spike_rate_update_counter + 1 →
      (update_ra_motion_volume mn mx s fired now).ra_motion_spike_timestamps =
        s.ra_motion_spike_timestamps ++ [(now, fired)]) ∧
    (spike_rate_update_interval ≤ s.spike_rate_update_counter + 1 →
      (update_ra_motion_volume mn mx s fired now).ra_motion_spike_timestamps =
        (s.ra_motion_spike_timestamps ++ [(now, fired)]).dropWhile
          (fun e => decide (e.1 < now - spike_window_duration_sec)) ∧
      ((s.ra_motion_spike_timestamps ++ [(now, fired)]).Pairwise
          (fun a b => a.1 ≤ b.1) →
        ∀ e ∈ (update_ra_motion_volume mn mx s fired now
            ).ra_motion_spike_timestamps,
          now - spike_window_duration_sec ≤ e.1)) := by
  constructor
  · intro h
    rw [update_timestamps_def, if_neg h]
  · intro h
    have heq : (update_ra_motion_volume mn mx s fired now
        ).ra_motion_spike_timestamps =
        (s.ra_motion_spike_timestamps ++ [(now, fired)]).dropWhile
          (fun e => decide (e.1 < now - spike_window_duration_sec)) := by
      rw [update_timestamps_def, if_pos h, calculate_spike_rate_snd]
    refine ⟨heq, fun hsorted e he => ?_⟩
    rw [heq] at he
    exact dropWhile_cutoff _ _ hsorted e he

/-- Concrete pre-tick state for the C9 witness: a window holding one
entry stamped 0 and an update counter of 1, so the next tick recomputes
the rate and prunes. -/
def pruneTickState : HapticState :=
  { initState with
    ra_motion_spike_timestamps := [(0, true)]
    spike_rate_update_counter := 1 }

/-- Witness for C9 amended theorem: from `pruneTickState`, the tick at
time 3/100 recomputes the rate; the stored window is the pruned append
and every retained entry is at least the rolling cutoff. -/
theorem spike_window_append_and_prune_witness :
    spike_rate_update_interval ≤ pruneTickState.spike_rate_update_counter + 1 ∧
    ((update_ra_motion_volume 0.7 1.0 pruneTickState true (3/100)
        ).ra_motion_spike_timestamps =
      (pruneTickState.ra_motion_spike_timestamps ++ [(3/100, true)]).dropWhile
        (fun e => decide (e.1 < 3/100 - spike_window_duration_sec)) ∧
     (∀ e ∈ (update_ra_motion_volume 0.7 1.0 pruneTickState true (3/100)
        ).ra_motion_spike_timestamps,
      (3/100 : ℚ) - spike_window_duration_sec ≤ e.1)) := by
  have hcnt : spike_rate_update_interval ≤
      pruneTickState.spike_rate_update_counter + 1 := by
    norm_num [spike_rate_update_interval, pruneTickState]
  have hsorted : (pruneTickState.ra_motion_spike_timestamps ++
      [((3/100 : ℚ), true)]).Pairwise (fun a b => a.1 ≤ b.1) := by
    simp [pruneTickState, initState, List.pairwise_cons]
    norm_num
  have h := (spike_window_append_and_prune 0.7 1.0 pruneTickState true (3/100)).2 hcnt
  exact ⟨hcnt, h.1, h.2 hsorted⟩

/-! ## Claim C10: change_material with an invalid index -/

/-- Claim C10: for any material index outside [0, number of materials),
`change_material` returns False and leaves the whole material/sound/
playback state exactly as it was. -/
theorem change_material_invalid_index_noop (s : MaterialSysState)
    (material_index : ℤ)
    (h : ¬ (0 ≤ material_index ∧
            material_index < (material_keys.length : ℤ))) :
    change_material s material_index = (false, s) := by
  simp only [change_material]
  rw [if_neg h]

/-- Witness for C10: index 7 (one past the last of the 7 materials) on a
concrete state is rejected and changes nothing. -/
theorem change_material_invalid_index_noop_witness :
    ¬ ((0:ℤ) ≤ 7 ∧ (7:ℤ) < (material_keys.length : ℤ)) ∧
    change_material
      { current_material_key := "Glass", current_roughness := 0.05,
        ra_motion_sound := ⟨"ra_motion", "Glass", 48⟩,
        ra_click_sound := ⟨"ra_click", "Glass", 240⟩,
        ra_motion_loop_sound := ⟨"ra_motion_loop", "Glass", 48⟩,
        channel1 := none, current_volume := 0 } 7 =
    (false,
      { current_material_key := "Glass", current_roughness := 0.05,
        ra_motion_sound := ⟨"ra_motion", "Glass", 48⟩,
        ra_click_sound := ⟨"ra_click", "Glass", 240⟩,
        ra_motion_loop_sound := ⟨"ra_motion_loop", "Glass", 48⟩,
        channel1 := none, current_volume := 0 }) :=
  ⟨by decide,
   change_material_invalid_index_noop _ 7 (by decide)⟩

/-! ## Waveform synthesis (src/audio/haptic_renderer.py)

Sample amplitudes are real numbers (the Python code evaluates `sin`,
`exp` and `pi` in floating point; the embedding uses the exact real
functions).  `numpy.random.normal`, the unseeded global generator that
`_create_wood_waveform` and `_create_fabric_waveform` draw from, is made
explicit as a `noise : ℕ → ℝ` stream consumed in order; generators that
perform no draw simply ignore the stream. -/

/-- Python `int(sample_rate * (ms / 1000.0))` with `sample_rate` 44100:
`int()` truncates toward zero, which equals the floor on the nonnegative
durations used. -/
def n_samples (ms : ℚ) : ℕ := (⌊(44100 : ℚ) * (ms / 1000)⌋).toNat

/-- Python `int(sample_rate * (fade_out_ms / 1000.0))`. -/
def fade_samples (fade_out_ms : ℚ) : ℕ := (⌊(44100 : ℚ) * (fade_out_ms / 1000)⌋).toNat

/-- Element i of `np.linspace(0, ms/1000, n, False)`: step (ms/1000)/n. -/
noncomputable def tSample (ms : ℚ) (n : ℕ) (i : ℕ) : ℝ :=
  ((ms : ℝ) / 1000) * i / n

/-- Element k of `np.linspace(1, 0, m)` (endpoints included; a single
point gives 1). -/
noncomputable def fadeLin (m k : ℕ) : ℝ :=
  if m ≤ 1 then 1 else 1 - (k : ℝ) / (m - 1)

/-- Element k of `np.linspace(0, 1, m)` (endpoints included; a single
point gives 0). -/
noncomputable def attackRamp (m k : ℕ) : ℝ :=
  if m ≤ 1 then 0 else (k : ℝ) / (m - 1)

/-- Element i of `np.convolve(w, np.ones(m)/m, mode='same')` on a signal
of length n (zero padded outside [0, n)). -/
noncomputable def convSame (m n : ℕ) (w : ℕ → ℝ) (i : ℕ) : ℝ :=
  (Finset.range m).sum (fun j =>
    let k : ℤ := (i : ℤ) + ((m - 1) / 2 : ℕ) - j
    if 0 ≤ k ∧ k < (n : ℤ) then w k.toNat else 0) / m

/-- The in-place one-pole filter `x[i] = c1*x[i] + c2*x[i-1]` run over a
raw signal from index 0 (index 0 is left unfiltered, as in the code). -/
noncomputable def onePoleFilter (c1 c2 : ℝ) (raw : ℕ → ℝ) : ℕ → ℝ
  | 0 => raw 0
  | n + 1 => c1 * raw (n + 1) + c2 * onePoleFilter c1 c2 raw n

/-- Python truncation toward zero of a real (the behavior of
`.astype(np.int16)` before wraparound). -/
noncomputable def truncTowardZero (x : ℝ) : ℤ := if 0 ≤ x then ⌊x⌋ else ⌈x⌉

/-- Wraparound of an integer into the int16 range, as the numpy cast
does for out-of-range values. -/
def int16_wrap (n : ℤ) : ℤ := (n + 32768) % 65536 - 32768

/-- The code's quantization `(wave_data * 32767).astype(np.int16)` per
sample: scale, truncate toward zero, wrap into int16. -/
noncomputable def quantizeInt16 (x : ℝ) : ℤ := int16_wrap (truncTowardZero (x * 32767))

/-- Clamp an integer into the int16 range. -/
def int16Clamp (n : ℤ) : ℤ := max (-32768) (min 32767 n)

/-- Defined from the spec's words for comparison (spec section 4.3:
"Quantization: `round(sample * 32767)` clamped to int16 range"). -/
noncomputable def roundClampQuantize (x : ℝ) : ℤ := int16Clamp (round (x * 32767))

/-- Model of `numpy.clip` on reals. -/
noncomputable def npClipR (x lo hi : ℝ) : ℝ := min (max x lo) hi

/-- Embedding of `HapticRenderer.create_sound_buffer`
(src/audio/haptic_renderer.py lines 35-64): a pure sine, linear
fade-out over the last `fade_out_ms`, then int16 quantization. -/
noncomputable def create_sound_buffer (hz ms amp fade_out_ms : ℚ) : List ℤ :=
  let n_s := n_samples ms
  let t := tSample ms n_s
  let wave_data : ℕ → ℝ := fun i =>
    (amp : ℝ) * Real.sin (2 * Real.pi * (hz : ℝ) * t i)
  let fade_out_samples := fade_samples fade_out_ms
  let faded : ℕ → ℝ := fun i =>
    if fade_out_samples < n_s ∧ 0 < fade_out_ms ∧ n_s - fade_out_samples ≤ i then
      wave_data i * fadeLin fade_out_samples (i - (n_s - fade_out_samples))
    else wave_data i
  (List.range n_s).map (fun i => quantizeInt16 (faded i))

/-- Embedding of the buffer produced by
`HapticRenderer.create_sound_object`
(src/audio/haptic_renderer.py lines 66-90): an empty buffer is replaced
by the single silent sample `np.array([0], dtype=np.int16)`. -/
noncomputable def create_sound_object_buffer (hz ms amp fade_out_ms : ℚ) : List ℤ :=
  let sound_buffer := create_sound_buffer hz ms amp fade_out_ms
  if sound_buffer.length = 0 then [0] else sound_buffer

set_option linter.unusedVariables false in
/-- Embedding of `HapticRenderer._create_glass_waveform`
(src/audio/haptic_renderer.py lines 170-206).  Glass draws nothing from
the random generator, so the `noise` stream is unused. -/
noncomputable def glass_waveform (hz ms amp fade_out_ms brightness : ℚ)
    (noise : ℕ → ℝ) : List ℤ :=
  let n_s := n_samples ms
  let t := tSample ms n_s
  let fundamental : ℕ → ℝ := fun i =>
    (amp : ℝ) * 0.85 * Real.sin (2 * Real.pi * (hz : ℝ) * t i)
  let harmonic2 : ℕ → ℝ := fun i =>
    (amp : ℝ) * 0.08 * (brightness : ℝ) * 0.2 *
      Real.sin (2 * Real.pi * (hz : ℝ) * 2 * t i)
  let harmonic3 : ℕ → ℝ := fun i =>
    (amp : ℝ) * 0.03 * (brightness : ℝ) * 0.1 *
      Real.sin (2 * Real.pi * (hz : ℝ) * 3 * t i)
  let subtle_texture : ℕ → ℝ := fun i =>
    (amp : ℝ) * 0.001 * Real.sin (2 * Real.pi * (hz : ℝ) * 8 * t i) *
      (1 + 0.1 * Real.sin (2 * Real.pi * 2 * t i))
  let wave0 : ℕ → ℝ := fun i =>
    fundamental i + harmonic2 i + harmonic3 i + subtle_texture i
  let wave1 : ℕ → ℝ := if 20 < n_s then convSame 15 n_s wave0 else wave0
  let attack_samples := (⌊(0.001 : ℚ) * 44100⌋).toNat
  let wave2 : ℕ → ℝ := fun i =>
    if attack_samples < n_s ∧ i < attack_samples then
      wave1 i * attackRamp attack_samples i
    else wave1 i
  let fade_out_samples := fade_samples fade_out_ms
  let wave3 : ℕ → ℝ := fun i =>
    if fade_out_samples < n_s ∧ 0 < fade_out_ms ∧ n_s - fade_out_samples ≤ i then
      wave2 i * fadeLin fade_out_samples (i - (n_s - fade_out_samples))
    else wave2 i
  (List.range n_s).map (fun i => quantizeInt16 (wave3 i))

/-- Embedding of `HapticRenderer._create_wood_waveform`
(src/audio/haptic_renderer.py lines 249-293).  `wood_roughness` consumes
`noise 0 .. noise (n_s - 1)` (the `np.random.normal(0, 1, n_s)` draw),
then is low-pass filtered in place. -/
noncomputable def wood_waveform (hz ms amp fade_out_ms warmth : ℚ)
    (noise : ℕ → ℝ) : List ℤ :=
  let n_s := n_samples ms
  let t := tSample ms n_s
  let fundamental : ℕ → ℝ := fun i =>
    (amp : ℝ) * 0.65 * Real.sin (2 * Real.pi * (hz : ℝ) * t i)
  let harmonic2 : ℕ → ℝ := fun i =>
    (amp : ℝ) * 0.15 * (warmth : ℝ) * Real.sin (2 * Real.pi * (hz : ℝ) * 2 * t i)
  let harmonic3 : ℕ → ℝ := fun i =>
    (amp : ℝ) * 0.08 * (warmth : ℝ) * Real.sin (2 * Real.pi * (hz : ℝ) * 3 * t i)
  let wood_roughness_raw : ℕ → ℝ := fun i => (amp : ℝ) * 0.08 * noise i
  let wood_roughness := onePoleFilter 0.6 0.4 wood_roughness_raw
  let wood_grain : ℕ → ℝ := fun i =>
    (amp : ℝ) * 0.04 * Real.sin (2 * Real.pi * (hz : ℝ) * 0.3 * t i) *
      (1 + 0.5 * Real.sin (2 * Real.pi * 0.8 * t i))
  let wood_pulse : ℕ → ℝ := fun i =>
    (amp : ℝ) * 0.02 * Real.sin (2 * Real.pi * (hz : ℝ) * 8 * t i) *
      Real.exp (-3 * t i)
  let wave0 : ℕ → ℝ := fun i =>
    fundamental i + harmonic2 i + harmonic3 i + wood_roughness i +
      wood_grain i + wood_pulse i
  let wave1 : ℕ → ℝ := if 15 < n_s then convSame 8 n_s wave0 else wave0
  let attack_samples := (⌊(0.003 : ℚ) * 44100⌋).toNat
  let wave2 : ℕ → ℝ := fun i =>
    if attack_samples < n_s ∧ i < attack_samples then
      wave1 i * attackRamp attack_samples i
    else wave1 i
  let fade_out_samples := fade_samples fade_out_ms
  let wave3 : ℕ → ℝ := fun i =>
    if fade_out_samples < n_s ∧ 0 < fade_out_ms ∧ n_s - fade_out_samples ≤ i then
      wave2 i * fadeLin fade_out_samples (i - (n_s - fade_out_samples))
    else wave2 i
  (List.range n_s).map (fun i => quantizeInt16 (npClipR (wave3 i) (-1) 1))

/-- Embedding of `HapticRenderer._create_fabric_waveform`
(src/audio/haptic_renderer.py lines 334-370).  The first
`np.random.normal(0, 1, n_s)` draw (the friction noise) consumes
`noise 0 .. noise (n_s - 1)` and the second (inside `fiber_texture`)
consumes `noise n_s .. noise (2*n_s - 1)`. -/
noncomputable def fabric_waveform (hz ms amp fade_out_ms softness : ℚ)
    (noise : ℕ → ℝ) : List ℤ :=
  let n_s := n_samples ms
  let t := tSample ms n_s
  let fundamental : ℕ → ℝ := fun i =>
    (amp : ℝ) * 0.4 * Real.sin (2 * Real.pi * (hz : ℝ) * 0.8 * t i)
  let fabric_noise_raw : ℕ → ℝ := fun i =>
    (amp : ℝ) * 0.4 * (softness : ℝ) * noise i
  let fabric_noise := onePoleFilter 0.2 0.8 fabric_noise_raw
  let fiber_texture : ℕ → ℝ := fun i =>
    (amp : ℝ) * 0.1 * Real.sin (2 * Real.pi * (hz : ℝ) * 0.1 * t i) *
      (1 + 0.2 * noise (n_s + i))
  let swish_effect : ℕ → ℝ := fun i =>
    (amp : ℝ) * 0.08 * Real.sin (2 * Real.pi * (hz : ℝ) * 0.05 * t i) *
      Real.exp (-0.5 * t i)
  let wave0 : ℕ → ℝ := fun i =>
    fundamental i + fabric_noise i + fiber_texture i + swish_effect i
  let attack_samples := (⌊(0.015 : ℚ) * 44100⌋).toNat
  let wave1 : ℕ → ℝ := fun i =>
    if attack_samples < n_s ∧ i < attack_samples then
      wave0 i * attackRamp attack_samples i
    else wave0 i
  let fade_out_samples := fade_samples fade_out_ms
  let wave2 : ℕ → ℝ := fun i =>
    if fade_out_samples < n_s ∧ 0 < fade_out_ms ∧ n_s - fade_out_samples ≤ i then
      wave1 i * fadeLin fade_out_samples (i - (n_s - fade_out_samples))
    else wave1 i
  (List.range n_s).map (fun i => quantizeInt16 (npClipR (wave2 i) (-1) 1))

/-! ## Claim C6: sound-buffer length -/

lemma create_sound_buffer_length (hz ms amp fade_out_ms : ℚ) :
    (create_sound_buffer hz ms amp fade_out_ms).length = n_samples ms := by
  simp [create_sound_buffer]

/-- Claim C6, counterexample: at duration 9 ms (sample rate 44100) the
code produces `int(396.9) = 396` samples, but
`round(sample_rate * duration/1000) = 397`: the length is the truncation
of the sample count, not its rounding. -/
theorem sound_buffer_length_not_round :
    (create_sound_buffer 30 9 0.8 10).length ≠
      (round ((44100 : ℚ) * (9 / 1000))).toNat := by
  rw [create_sound_buffer_length]
  have h1 : n_samples 9 = 396 := by
    have : ⌊(44100 : ℚ) * (9 / 1000)⌋ = 396 := by norm_num
    simp [n_samples, this]
  have h2 : round ((44100 : ℚ) * (9 / 1000)) = 397 := by norm_num [round_eq]
  rw [h1, h2]
  decide

/-- Claim C6, amended: for every frequency, amplitude and duration
ms > 0, the generated buffer has length `int(sample_rate * ms/1000)`
(truncation toward zero, not rounding); and whenever that count is 0 (in
particular whenever the duration rounds to 0 samples), the sound object
is built from the single silent sample `[0]` rather than an empty
buffer, so the produced sound never has length 0. -/
theorem sound_buffer_length_trunc_and_silent_fallback
    (hz ms amp fade_out_ms : ℚ) (hms : 0 < ms) :
    (create_sound_buffer hz ms amp fade_out_ms).length =
      (⌊(44100 : ℚ) * (ms / 1000)⌋).toNat ∧
    (n_samples ms = 0 →
      create_sound_object_buffer hz ms amp fade_out_ms = [0]) ∧
    (round ((44100 : ℚ) * (ms / 1000)) = 0 →
      create_sound_object_buffer hz ms amp fade_out_ms = [0]) ∧
    1 ≤ (create_sound_object_buffer hz ms amp fade_out_ms).length := by
  have hlen := create_sound_buffer_length hz ms amp fade_out_ms
  have hempty : n_samples ms = 0 →
      create_sound_object_buffer hz ms amp fade_out_ms = [0] := by
    intro h0
    simp [create_sound_object_buffer, hlen, h0]
  refine ⟨hlen, hempty, ?_, ?_⟩
  · intro hround
    apply hempty
    have hx : (0 : ℚ) ≤ (44100 : ℚ) * (ms / 1000) := by positivity
    have hfl : ⌊(44100 : ℚ) * (ms / 1000) + 1 / 2⌋ = 0 := by
      rw [round_eq] at hround
      exact hround
    have hlt : (44100 : ℚ) * (ms / 1000) + 1 / 2 < 1 :=
      (Int.floor_eq_zero_iff.mp hfl).2
    have : ⌊(44100 : ℚ) * (ms / 1000)⌋ = 0 := by
      rw [Int.floor_eq_zero_iff]
      constructor
      · exact hx
      · linarith
    simp [n_samples, this]
  · rw [create_sound_object_buffer]
    split_ifs with h0
    · norm_num
    · rw [hlen] at h0 ⊢
      omega

/-- Witness for C6's amended theorem at duration 1/100 ms, which truncates
(and rounds) to 0 samples: the sound object degenerates to the single
silent sample and has length 1. -/
theorem sound_buffer_length_trunc_witness :
    (0 : ℚ) < 1 / 100 ∧
    n_samples (1 / 100) = 0 ∧
    (create_sound_buffer 30 (1 / 100) 0.8 10).length =
      (⌊(44100 : ℚ) * ((1 / 100) / 1000)⌋).toNat ∧
    create_sound_object_buffer 30 (1 / 100) 0.8 10 = [0] ∧
    1 ≤ (create_sound_object_buffer 30 (1 / 100) 0.8 10).length := by
  have hn : n_samples (1 / 100) = 0 := by
    rw [n_samples, Int.toNat_eq_zero]
    norm_num
  have h := sound_buffer_length_trunc_and_silent_fallback 30 (1 / 100) 0.8 10
    (by norm_num)
  exact ⟨by norm_num, hn, h.1, h.2.1 hn, h.2.2.2⟩

/-! ## Claim C7: quantization -/

lemma int16_wrap_mem (n : ℤ) : -32768 ≤ int16_wrap n ∧ int16_wrap n ≤ 32767 := by
  unfold int16_wrap
  constructor
  · have h := Int.emod_nonneg (n + 32768) (by norm_num : (65536:ℤ) ≠ 0)
    linarith
  · have h := Int.emod_lt_of_pos (n + 32768) (by norm_num : (0:ℤ) < 65536)
    linarith

lemma int16_wrap_eq_self {n : ℤ} (h1 : -32768 ≤ n) (h2 : n ≤ 32767) :
    int16_wrap n = n := by
  unfold int16_wrap
  rw [Int.emod_eq_of_lt (by linarith) (by linarith)]
  ring

lemma quantizeInt16_mem (x : ℝ) :
    -32768 ≤ quantizeInt16 x ∧ quantizeInt16 x ≤ 32767 :=
  int16_wrap_mem _

lemma truncTowardZero_bound {x : ℝ} (h1 : -32767 ≤ x) (h2 : x ≤ 32767) :
    -32767 ≤ truncTowardZero x ∧ truncTowardZero x ≤ 32767 := by
  unfold truncTowardZero
  split_ifs with h0
  · constructor
    · have h00 : (0 : ℤ) ≤ ⌊x⌋ := Int.le_floor.mpr (by exact_mod_cast h0)
      linarith
    · have hle : ((⌊x⌋ : ℤ) : ℝ) ≤ 32767 := le_trans (Int.floor_le x) h2
      exact_mod_cast hle
  · constructor
    · have hge : (-32767 : ℝ) ≤ (⌈x⌉ : ℤ) := le_trans h1 (Int.le_ceil x)
      exact_mod_cast hge
    · have hle : x ≤ ((32767 : ℤ) : ℝ) := by exact_mod_cast h2
      exact Int.ceil_le.mpr hle

lemma quantizeInt16_of_unit {x : ℝ} (h1 : -1 ≤ x) (h2 : x ≤ 1) :
    quantizeInt16 x = truncTowardZero (x * 32767) ∧
    -32767 ≤ quantizeInt16 x ∧ quantizeInt16 x ≤ 32767 := by
  have hx1 : -(32767 : ℝ) ≤ x * 32767 := by nlinarith
  have hx2 : x * 32767 ≤ 32767 := by nlinarith
  obtain ⟨hb1, hb2⟩ := truncTowardZero_bound (by linarith) hx2
  have heq : quantizeInt16 x = truncTowardZero (x * 32767) := by
    unfold quantizeInt16
    exact int16_wrap_eq_self (by linarith) hb2
  refine ⟨heq, ?_, ?_⟩
  · rw [heq]; exact hb1
  · rw [heq]; exact hb2

lemma mem_map_quantize_bound (n : ℕ) (g : ℕ → ℝ) :
    ∀ y ∈ (List.range n).map (fun i => quantizeInt16 (g i)),
      -32768 ≤ y ∧ y ≤ 32767 := by
  intro y hy
  obtain ⟨i, _, rfl⟩ := List.mem_map.mp hy
  exact quantizeInt16_mem _

/-- Claim C7, counterexample: at the pre-quantization sample value
1/40000 (inside [-1,1]) the code's quantization
`(x * 32767).astype(np.int16)` truncates 0.819... to 0, while the
claimed `round(x * 32767)` clamped to int16 gives 1: the quantization is
truncation toward zero with wraparound, not round-and-clamp. -/
theorem quantization_not_round_clamp :
    (-1 : ℝ) ≤ 1 / 40000 ∧ ((1 : ℝ) / 40000) ≤ 1 ∧
    quantizeInt16 ((1 : ℝ) / 40000) ≠ roundClampQuantize ((1 : ℝ) / 40000) := by
  refine ⟨by norm_num, by norm_num, ?_⟩
  have h1 : truncTowardZero ((1 : ℝ) / 40000 * 32767) = 0 := by
    unfold truncTowardZero
    rw [if_pos (by positivity)]
    rw [Int.floor_eq_zero_iff]
    constructor
    · positivity
    · norm_num
  have h2 : round ((1 : ℝ) / 40000 * 32767) = 1 := by
    rw [round_eq]
    have : ⌊(1 : ℝ) / 40000 * 32767 + 1 / 2⌋ = 1 := by
      rw [Int.floor_eq_iff]
      · constructor
        · push_cast
          norm_num
        · push_cast
          norm_num
    exact this
  rw [quantizeInt16, roundClampQuantize, h1, h2]
  decide

/-- Claim C7, amended: each output sample equals the int16 wraparound of
the truncation toward zero of `sample * 32767` (not its rounding, and
with wraparound rather than clamping); whenever the pre-quantization
sample lies in [-1, 1] no wraparound occurs and the quantized value lies
in [-32767, 32767]; and every sample of every generated buffer (generic
tone, sound object, glass, wood, fabric) lies within the int16 bounds
[-32768, 32767]. -/
theorem quantization_trunc_wrap_and_bounds :
    (∀ x : ℝ, -1 ≤ x → x ≤ 1 →
      quantizeInt16 x = truncTowardZero (x * 32767) ∧
      -32767 ≤ quantizeInt16 x ∧ quantizeInt16 x ≤ 32767) ∧
    (∀ x : ℝ, -32768 ≤ quantizeInt16 x ∧ quantizeInt16 x ≤ 32767) ∧
    (∀ hz ms amp fade_out_ms : ℚ,
      ∀ y ∈ create_sound_buffer hz ms amp fade_out_ms,
        -32768 ≤ y ∧ y ≤ 32767) ∧
    (∀ hz ms amp fade_out_ms : ℚ,
      ∀ y ∈ create_sound_object_buffer hz ms amp fade_out_ms,
        -32768 ≤ y ∧ y ≤ 32767) ∧
    (∀ (hz ms amp fade_out_ms brightness : ℚ) (noise : ℕ → ℝ),
      ∀ y ∈ glass_waveform hz ms amp fade_out_ms brightness noise,
        -32768 ≤ y ∧ y ≤ 32767) ∧
    (∀ (hz ms amp fade_out_ms warmth : ℚ) (noise : ℕ → ℝ),
      ∀ y ∈ wood_waveform hz ms amp fade_out_ms warmth noise,
        -32768 ≤ y ∧ y ≤ 32767) ∧
    (∀ (hz ms amp fade_out_ms softness : ℚ) (noise : ℕ → ℝ),
      ∀ y ∈ fabric_waveform hz ms amp fade_out_ms softness noise,
        -32768 ≤ y ∧ y ≤ 32767) := by
  have hbuf : ∀ hz ms amp fade_out_ms : ℚ,
      ∀ y ∈ create_sound_buffer hz ms amp fade_out_ms,
        -32768 ≤ y ∧ y ≤ 32767 := by
    intro hz ms amp fade_out_ms
    simp only [create_sound_buffer]
    exact mem_map_quantize_bound _ _
  refine ⟨fun x h1 h2 => quantizeInt16_of_unit h1 h2,
          fun x => quantizeInt16_mem x, hbuf, ?_, ?_, ?_, ?_⟩
  · intro hz ms amp fade_out_ms
    rw [create_sound_object_buffer]
    split_ifs with h0
    · intro y hy
      rw [List.mem_singleton] at hy
      subst hy
      norm_num
    · exact hbuf hz ms amp fade_out_ms
  · intro hz ms amp fade_out_ms brightness noise
    simp only [glass_waveform]
    exact mem_map_quantize_bound _ _
  · intro hz ms amp fade_out_ms warmth noise
    simp only [wood_waveform]
    exact mem_map_quantize_bound _ _
  · intro hz ms amp fade_out_ms softness noise
    simp only [fabric_waveform]
    exact mem_map_quantize_bound _ _

/-- Witness for C7's amended theorem: the sample value 1/2 is quantized
without wraparound, and the concrete degenerate sound object (duration
1/100 ms) contains only the silent sample 0, within int16 bounds. -/
theorem quantization_trunc_wrap_witness :
    ((-1 : ℝ) ≤ 1 / 2 ∧ ((1 : ℝ) / 2) ≤ 1 ∧
     quantizeInt16 ((1 : ℝ) / 2) = truncTowardZero ((1 : ℝ) / 2 * 32767) ∧
     -32767 ≤ quantizeInt16 ((1 : ℝ) / 2) ∧
     quantizeInt16 ((1 : ℝ) / 2) ≤ 32767) ∧
    ((0 : ℤ) ∈ create_sound_object_buffer 30 (1 / 100) 0.8 10 ∧
     -32768 ≤ (0 : ℤ) ∧ (0 : ℤ) ≤ 32767) := by
  have hn : n_samples (1 / 100) = 0 := by
    rw [n_samples, Int.toNat_eq_zero]
    norm_num
  have hobj : create_sound_object_buffer 30 (1 / 100) 0.8 10 = [0] := by
    simp only [create_sound_object_buffer]
    rw [if_pos]
    rw [create_sound_buffer_length]
    exact hn
  have hmem : (0 : ℤ) ∈ create_sound_object_buffer 30 (1 / 100) 0.8 10 := by
    rw [hobj]
    exact List.mem_singleton.mpr rfl
  refine ⟨?_, hmem, ?_, ?_⟩
  · have h := quantization_trunc_wrap_and_bounds.1 (1 / 2) (by norm_num) (by norm_num)
    exact ⟨by norm_num, by norm_num, h.1, h.2.1, h.2.2⟩
  · exact (quantization_trunc_wrap_and_bounds.2.2.2.1 30 (1 / 100) 0.8 10 0 hmem).1
  · exact (quantization_trunc_wrap_and_bounds.2.2.2.1 30 (1 / 100) 0.8 10 0 hmem).2

/-! ## Claim C8: determinism of the waveform generators -/

lemma map_range_head (n : ℕ) (hn : n ≠ 0) (f : ℕ → ℤ) :
    ((List.range n).map f).head? = some (f 0) := by
  cases n with
  | zero => exact absurd rfl hn
  | succ m =>
      rw [List.range_succ_eq_map]
      simp

lemma n_samples_one_thirtieth : n_samples (1/30) = 1 := by
  rw [n_samples]
  have h : ⌊(44100 : ℚ) * ((1/30) / 1000)⌋ = 1 := by norm_num
  rw [h]
  rfl

lemma wood_head_eval (noise : ℕ → ℝ) :
    (wood_waveform 24 (1/30) (4/5) 0 (5/2) noise).head? =
      some (quantizeInt16 (npClipR ((4/5 : ℝ) * 0.08 * noise 0) (-1) 1)) := by
  simp only [wood_waveform, n_samples_one_thirtieth]
  rw [map_range_head 1 one_ne_zero]
  norm_num [tSample, fade_samples, onePoleFilter, Real.sin_zero, Real.exp_zero]

lemma fabric_head_eval (noise : ℕ → ℝ) :
    (fabric_waveform 18 (1/30) (4/5) 0 3 noise).head? =
      some (quantizeInt16 (npClipR ((4/5 : ℝ) * 0.4 * 3 * noise 0) (-1) 1)) := by
  simp only [fabric_waveform, n_samples_one_thirtieth]
  rw [map_range_head 1 one_ne_zero]
  norm_num [tSample, fade_samples, onePoleFilter, Real.sin_zero, Real.exp_zero]

lemma quantize_clip_zero : quantizeInt16 (npClipR ((4/5 : ℝ) * 0.08 * 0) (-1) 1) = 0 := by
  have hclip : npClipR ((4/5 : ℝ) * 0.08 * 0) (-1) 1 = 0 := by
    norm_num [npClipR]
  rw [hclip]
  have htr : truncTowardZero ((0 : ℝ) * 32767) = 0 := by
    unfold truncTowardZero
    rw [if_pos (by norm_num)]
    norm_num
  rw [quantizeInt16, htr]
  decide

lemma quantize_clip_wood_one :
    quantizeInt16 (npClipR ((4/5 : ℝ) * 0.08 * 1) (-1) 1) = 2097 := by
  have hclip : npClipR ((4/5 : ℝ) * 0.08 * 1) (-1) 1 = 0.064 := by
    norm_num [npClipR]
  rw [hclip]
  have htr : truncTowardZero ((0.064 : ℝ) * 32767) = 2097 := by
    unfold truncTowardZero
    rw [if_pos (by norm_num)]
    rw [Int.floor_eq_iff]
    constructor
    · push_cast
      norm_num
    · push_cast
      norm_num
  rw [quantizeInt16, htr]
  decide

lemma wood_noise_sensitive :
    wood_waveform 24 (1/30) (4/5) 0 (5/2) (fun _ => 0) ≠
      wood_waveform 24 (1/30) (4/5) 0 (5/2) (fun _ => 1) := by
  intro h
  have h0 := wood_head_eval (fun _ => 0)
  have h1 := wood_head_eval (fun _ => 1)
  rw [h, h1] at h0
  have heq := Option.some.inj h0
  rw [quantize_clip_wood_one, quantize_clip_zero] at heq
  exact absurd heq (by decide)

lemma quantize_clip_fabric_zero :
    quantizeInt16 (npClipR ((4/5 : ℝ) * 0.4 * 3 * 0) (-1) 1) = 0 := by
  have hclip : npClipR ((4/5 : ℝ) * 0.4 * 3 * 0) (-1) 1 = 0 := by
    norm_num [npClipR]
  rw [hclip]
  have htr : truncTowardZero ((0 : ℝ) * 32767) = 0 := by
    unfold truncTowardZero
    rw [if_pos (by norm_num)]
    norm_num
  rw [quantizeInt16, htr]
  decide

lemma quantize_clip_fabric_one :
    quantizeInt16 (npClipR ((4/5 : ℝ) * 0.4 * 3 * 1) (-1) 1) = 31456 := by
  have hclip : npClipR ((4/5 : ℝ) * 0.4 * 3 * 1) (-1) 1 = 0.96 := by
    norm_num [npClipR]
  rw [hclip]
  have htr : truncTowardZero ((0.96 : ℝ) * 32767) = 31456 := by
    unfold truncTowardZero
    rw [if_pos (by norm_num)]
    rw [Int.floor_eq_iff]
    constructor
    · push_cast
      norm_num
    · push_cast
      norm_num
  rw [quantizeInt16, htr]
  decide

lemma fabric_noise_sensitive :
    fabric_waveform 18 (1/30) (4/5) 0 3 (fun _ => 0) ≠
      fabric_waveform 18 (1/30) (4/5) 0 3 (fun _ => 1) := by
  intro h
  have h0 := fabric_head_eval (fun _ => 0)
  have h1 := fabric_head_eval (fun _ => 1)
  rw [h, h1] at h0
  have heq := Option.some.inj h0
  rw [quantize_clip_fabric_one, quantize_clip_fabric_zero] at heq
  exact absurd heq (by decide)

/-- Claim C8, counterexample: the wood generator is not deterministic in
its arguments.  With identical arguments (frequency 24, duration
1/30 ms, amplitude 4/5, no fade-out, warmth 5/2) but two different
outcomes of the `np.random.normal` draw it consumes (the all-0 and the
all-1 streams), the produced buffers differ already in their first
sample (0 versus 2097). -/
theorem wood_waveform_nondeterministic :
    wood_waveform 24 (1/30) (4/5) 0 (5/2) (fun _ => 0) ≠
      wood_waveform 24 (1/30) (4/5) 0 (5/2) (fun _ => 1) :=
  wood_noise_sensitive

/-- Claim C8, amended: the generators that draw nothing from the random
generator (here the glass timbre; likewise the generic tone, whose
embedding takes no noise stream at all) are deterministic: identical
arguments give identical buffers regardless of the RNG state.  The wood
and fabric generators, however, consume fresh `np.random.normal` draws
on every invocation, so identical arguments can produce different
buffers, and a cached buffer need not equal what regeneration would
produce for those two materials. -/
theorem waveform_generators_determinism :
    (∀ (hz ms amp fade_out_ms brightness : ℚ) (noise1 noise2 : ℕ → ℝ),
      glass_waveform hz ms amp fade_out_ms brightness noise1 =
        glass_waveform hz ms amp fade_out_ms brightness noise2) ∧
    (∃ noise1 noise2 : ℕ → ℝ,
      wood_waveform 24 (1/30) (4/5) 0 (5/2) noise1 ≠
        wood_waveform 24 (1/30) (4/5) 0 (5/2) noise2) ∧
    (∃ noise1 noise2 : ℕ → ℝ,
      fabric_waveform 18 (1/30) (4/5) 0 3 noise1 ≠
        fabric_waveform 18 (1/30) (4/5) 0 3 noise2) :=
  ⟨fun _ _ _ _ _ _ _ => rfl,
   ⟨fun _ => 0, fun _ => 1, wood_noise_sensitive⟩,
   ⟨fun _ => 0, fun _ => 1, fabric_noise_sensitive⟩⟩
